import Mathlib

/-!
Verification of the code generator in `bravado/cli/generate.py`.

The generator is a pure transformation from an in-memory Swagger spec
(resources, operations, parameters, response definitions) to the text of a
Python client module.  This file embeds that transformation shallowly:

* Python dicts are modelled as association lists `List (String × _)` whose
  order is the dict's (insertion / iteration) order; dict keys are unique,
  which theorems assume via `Nodup` hypotheses where it matters.
* `sorted(...)` on strings is Python's lexicographic comparison of Unicode
  code points; it is embedded as insertion sort over an executable
  code-point comparison (`pyLe` / `pyLt` below), which agrees with
  Python's `<` / `<=` on strings.
* Python truthiness (`if not x:`) on a value that may be `None` is modelled
  by `pyNot`, parameterized by the falsiness test of the value domain.
* The dereferencing capability `swagger_spec.deref` of the external
  collaborator (bravado-core) is an opaque parameter
  `deref : Option V → Option V`; bravado-core's deref maps `None` to `None`,
  which theorems take as an explicit hypothesis where needed.
-/

set_option maxRecDepth 200000

/-- Comparison of two strings as lists of chars by Unicode code point:
Python's `<` on strings. -/
def pyLtChars : List Char → List Char → Bool
  | [], [] => false
  | [], _ :: _ => true
  | _ :: _, [] => false
  | a :: as, b :: bs =>
    if a.toNat < b.toNat then true
    else if b.toNat < a.toNat then false
    else pyLtChars as bs

/-- Comparison of two strings as lists of chars by Unicode code point:
Python's `<=` on strings. -/
def pyLeChars : List Char → List Char → Bool
  | [], _ => true
  | _ :: _, [] => false
  | a :: as, b :: bs =>
    if a.toNat < b.toNat then true
    else if b.toNat < a.toNat then false
    else pyLeChars as bs

/-- Python's `<` on strings (lexicographic by code point). -/
def pyLt (a b : String) : Bool := pyLtChars a.data b.data

/-- Python's `<=` on strings (lexicographic by code point). -/
def pyLe (a b : String) : Bool := pyLeChars a.data b.data

theorem pyLeChars_total (a b : List Char) : pyLeChars a b = true ∨ pyLeChars b a = true := by
  induction a generalizing b with
  | nil => left; rfl
  | cons x xs ih =>
    cases b with
    | nil => right; rfl
    | cons y ys =>
      simp only [pyLeChars]
      rcases Nat.lt_trichotomy x.toNat y.toNat with h | h | h
      · left; simp [h]
      · simp [h, Nat.lt_irrefl]
        exact ih ys
      · right; simp [h, Nat.lt_asymm h]

theorem pyLeChars_trans (a b c : List Char) (hab : pyLeChars a b = true)
    (hbc : pyLeChars b c = true) : pyLeChars a c = true := by
  induction a generalizing b c with
  | nil => rfl
  | cons x xs ih =>
    cases b with
    | nil => simp [pyLeChars] at hab
    | cons y ys =>
      cases c with
      | nil => simp [pyLeChars] at hbc
      | cons z zs =>
        simp only [pyLeChars] at hab hbc ⊢
        rcases Nat.lt_trichotomy x.toNat y.toNat with h1 | h1 | h1
        · rcases Nat.lt_trichotomy y.toNat z.toNat with h2 | h2 | h2
          · simp [Nat.lt_trans h1 h2]
          · have hx : x.toNat < z.toNat := by rw [← h2]; exact h1
            simp [hx]
          · simp [Nat.lt_asymm h2, h2] at hbc
        · rcases Nat.lt_trichotomy y.toNat z.toNat with h2 | h2 | h2
          · have hx : x.toNat < z.toNat := by rw [h1]; exact h2
            simp [hx]
          · have hxz : x.toNat = z.toNat := h1.trans h2
            have hab2 : pyLeChars xs ys = true := by
              simpa [h1, Nat.lt_irrefl] using hab
            have hbc2 : pyLeChars ys zs = true := by
              simpa [h2, Nat.lt_irrefl] using hbc
            simp [hxz, Nat.lt_irrefl, ih ys zs hab2 hbc2]
          · simp [Nat.lt_asymm h2, h2] at hbc
        · simp [Nat.lt_asymm h1, h1] at hab

theorem pyLeChars_antisymm (a b : List Char) (hab : pyLeChars a b = true)
    (hba : pyLeChars b a = true) : a = b := by
  induction a generalizing b with
  | nil =>
    cases b with
    | nil => rfl
    | cons y ys => simp [pyLeChars] at hba
  | cons x xs ih =>
    cases b with
    | nil => simp [pyLeChars] at hab
    | cons y ys =>
      simp only [pyLeChars] at hab hba
      rcases Nat.lt_trichotomy x.toNat y.toNat with h | h | h
      · simp [h, Nat.lt_asymm h] at hba
      · have hxy : x = y := Char.eq_of_val_eq (UInt32.ext h)
        subst hxy
        simp [Nat.lt_irrefl] at hab hba
        rw [ih ys hab hba]
      · simp [h, Nat.lt_asymm h] at hab

theorem pyLe_total (a b : String) : pyLe a b = true ∨ pyLe b a = true :=
  pyLeChars_total a.data b.data

theorem pyLe_trans (a b c : String) (hab : pyLe a b = true) (hbc : pyLe b c = true) :
    pyLe a c = true :=
  pyLeChars_trans a.data b.data c.data hab hbc

theorem pyLe_antisymm (a b : String) (hab : pyLe a b = true) (hba : pyLe b a = true) :
    a = b := by
  cases a; cases b
  exact congrArg String.mk (pyLeChars_antisymm _ _ hab hba)

/-- The relation strings are sorted by: Python's `<=`. -/
def pyLeRel (a b : String) : Prop := pyLe a b = true

instance : DecidableRel pyLeRel := fun a b => inferInstanceAs (Decidable (_ = true))

instance : IsTotal String pyLeRel := ⟨pyLe_total⟩

instance : IsTrans String pyLeRel := ⟨pyLe_trans⟩

instance : IsAntisymm String pyLeRel := ⟨pyLe_antisymm⟩

/-- Embedding of Python `sorted()` on a list of strings. -/
def pySortedStrings (l : List String) : List String := List.insertionSort pyLeRel l

/-- The relation key-value pairs are sorted by: Python compares the tuples,
which compares the (unique) keys first; with unique keys the second
components are never compared. -/
def pyKeyRel {α : Type} (a b : String × α) : Prop := pyLe a.1 b.1 = true

instance {α : Type} : DecidableRel (pyKeyRel (α := α)) :=
  fun a b => inferInstanceAs (Decidable (_ = true))

instance {α : Type} : IsTotal (String × α) pyKeyRel := ⟨fun a b => pyLe_total a.1 b.1⟩

instance {α : Type} : IsTrans (String × α) pyKeyRel :=
  ⟨fun a b c => pyLe_trans a.1 b.1 c.1⟩

/-- Embedding of Python `sorted()` on the items of a dict with string keys. -/
def pySortPairs {α : Type} (l : List (String × α)) : List (String × α) :=
  List.insertionSort pyKeyRel l

/-- Python truthiness test of an optional value: `not x` is true when `x` is
`None` or a falsy value of the domain (`falsy` is the domain's falsiness). -/
def pyNot {V : Type} (falsy : V → Bool) : Option V → Bool
  | none => true
  | some v => falsy v

/-- Embedding of `_get_happy_path_response_spec` (generate.py lines 183-199).
`responses_spec` is the items of the `responses` dict; `deref` is the
external `swagger_spec.deref`; `falsy` is Python falsiness on response
definitions.  The three assignments to the local `response_spec` are
threaded explicitly. -/
def _get_happy_path_response_spec {V : Type} (falsy : V → Bool)
    (deref : Option V → Option V) (responses_spec : List (String × V)) : Option V :=
  let response_spec := List.lookup "200" responses_spec
  let response_spec :=
    if pyNot falsy response_spec then
      match pySortedStrings (responses_spec.map Prod.fst) with
      | [] => response_spec
      | status_code :: _ =>
        if pyLt status_code "300" then deref (List.lookup status_code responses_spec)
        else response_spec
    else response_spec
  if pyNot falsy response_spec then deref (List.lookup "default" responses_spec)
  else response_spec

/-- C1 (counterexample): with the key "200" present but bound to a falsy
value (here the Python integer 0, with identity dereferencing), the selector
does not return the stored value verbatim: it falls through both fallback
branches and returns the absent value. -/
theorem get_happy_path_200_counterexample :
    List.lookup "200" [("200", (0 : ℕ))] = some 0 ∧
    _get_happy_path_response_spec (fun n : ℕ => n == 0) (fun r => r)
      [("200", (0 : ℕ))] = none := by
  constructor
  · rfl
  · rfl

/-- C1 (amended): for every responses mapping in which the key "200" is
present with a truthy value, the selector returns that value verbatim,
without dereferencing it and regardless of any other entries. -/
theorem get_happy_path_200_truthy {V : Type} (falsy : V → Bool)
    (deref : Option V → Option V) (responses_spec : List (String × V)) (v : V)
    (h200 : List.lookup "200" responses_spec = some v) (hv : falsy v = false) :
    _get_happy_path_response_spec falsy deref responses_spec = some v := by
  unfold _get_happy_path_response_spec
  rw [h200]
  simp [pyNot, hv]

/-- C1 (witness): concrete instance of `get_happy_path_200_truthy`: the
mapping `{"200": 7, "404": 3}` over Python integers selects `7` verbatim. -/
theorem get_happy_path_200_truthy_witness :
    _get_happy_path_response_spec (fun n : ℕ => n == 0) (fun r => r)
      [("200", (7 : ℕ)), ("404", (3 : ℕ))] = some 7 :=
  get_happy_path_200_truthy (fun n : ℕ => n == 0) (fun r => r)
    [("200", (7 : ℕ)), ("404", (3 : ℕ))] 7 (by rfl) (by rfl)

/-- C2 (counterexample): for the mapping `{"201": 0}` (no "200" entry, the
smallest key "201" is below "300", identity dereferencing), the claim
prescribes returning the dereferenced definition `0`; the code instead finds
that value falsy, falls to the "default" branch, and returns absent. -/
theorem get_happy_path_no_200_counterexample :
    List.lookup "200" [("201", (0 : ℕ))] = none ∧
    pyLt "201" "300" = true ∧
    _get_happy_path_response_spec (fun n : ℕ => n == 0) (fun r => r)
      [("201", (0 : ℕ))] = none := by
  refine ⟨rfl, rfl, rfl⟩

/-- C2 (amended): for a responses mapping without a (truthy) "200" entry and
an absence-preserving dereferencer, the selector returns the dereferenced
definition of the lexicographically smallest key provided that key is below
"300" *and* the dereferenced definition is truthy; in every other case it
returns the dereferenced "default" entry (absent when no "default" entry
exists — in particular the empty mapping yields absent). -/
theorem get_happy_path_no_200 {V : Type} (falsy : V → Bool)
    (deref : Option V → Option V) (responses_spec : List (String × V))
    (h200 : List.lookup "200" responses_spec = none)
    (hderef : deref none = none) :
    _get_happy_path_response_spec falsy deref responses_spec =
      match pySortedStrings (responses_spec.map Prod.fst) with
      | [] => none
      | status_code :: _ =>
        if pyLt status_code "300" = true ∧
            pyNot falsy (deref (List.lookup status_code responses_spec)) = false then
          deref (List.lookup status_code responses_spec)
        else deref (List.lookup "default" responses_spec) := by
  have hnone : pyNot falsy (none : Option V) = true := rfl
  simp only [_get_happy_path_response_spec]
  rw [h200]
  cases hs : pySortedStrings (responses_spec.map Prod.fst) with
  | nil =>
    have hempty : responses_spec = [] := by
      have hperm := (List.perm_insertionSort pyLeRel (responses_spec.map Prod.fst)).symm
      rw [show pySortedStrings (responses_spec.map Prod.fst) =
          List.insertionSort pyLeRel (responses_spec.map Prod.fst) from rfl] at hs
      rw [hs] at hperm
      have hlen := hperm.length_eq
      simp only [List.length_map, List.length_nil] at hlen
      exact List.eq_nil_of_length_eq_zero hlen
    subst hempty
    simp [hnone, hderef]
  | cons status_code rest =>
    by_cases hlt : pyLt status_code "300" = true
    · by_cases hfal : pyNot falsy (deref (List.lookup status_code responses_spec)) = true
      · simp [hnone, hlt, hfal]
      · have hf2 : pyNot falsy (deref (List.lookup status_code responses_spec)) = false := by
          simpa using hfal
        simp [hnone, hlt, hf2]
    · have hlt2 : pyLt status_code "300" = false := by simpa using hlt
      simp [hnone, hlt2]

/-- C2 (witness): concrete instance of `get_happy_path_no_200`: the mapping
`{"201": 7}` over Python integers (identity dereferencing) selects the
dereferenced `7`. -/
theorem get_happy_path_no_200_witness :
    _get_happy_path_response_spec (fun n : ℕ => n == 0) (fun r => r)
      [("201", (7 : ℕ))] = some 7 := by
  rw [get_happy_path_no_200 (fun n : ℕ => n == 0) (fun r => r)
    [("201", (7 : ℕ))] (by rfl) (by rfl)]
  rfl

/-- Default value of a parameter as found in the spec document (a YAML
scalar); `pyStr` is Python's `str()` on it, used by `'{}'.format(default)`
in the signature builder. -/
inductive DefaultVal where
  | str (s : String)
  | int (n : Int)
  | bool (b : Bool)
deriving DecidableEq

/-- Python's `str()` of a default value, as interpolated by `.format`. -/
def DefaultVal.pyStr : DefaultVal → String
  | .str s => s
  | .int n => toString n
  | .bool b => if b then "True" else "False"

/-- A parameter of an operation (bravado-core `Param`): `required` is
`param.required`, `default` is `param.param_spec.get('default')`
(`has_default()` is `default.isSome`), `param_type` is
`param.param_spec['type']`. -/
structure Param where
  required : Bool
  default : Option DefaultVal
  param_type : String
deriving DecidableEq

/-- An operation of a resource: `operation_id` is `operation.operation_id`,
`params` the items of the `operation.params` dict in iteration order,
`responses` the items of `operation.op_spec.get('responses', {})`.  `V` is
the domain of raw response definitions. -/
structure Operation (V : Type) where
  operation_id : String
  params : List (String × Param)
  responses : List (String × V)
deriving DecidableEq

/-- A resource: `name` is `resource.name`, `operations` the items of the
`resource.operations` dict in iteration order. -/
structure Resource (V : Type) where
  name : String
  operations : List (String × Operation V)
deriving DecidableEq

/-- A parsed Swagger spec: `resources` is the items of
`swagger_spec.resources` in iteration order. -/
structure Spec (V : Type) where
  resources : List (String × Resource V)
deriving DecidableEq

/-- Body of the `for param_name, param in operation.params.items()` loop of
`_generate_operation_signature` (lines 117-132): the accumulator carries the
Python locals `params` and `optional_params`. -/
def signature_loop_body (acc : List String × List String) (p : String × Param) :
    List String × List String :=
  let param_name := p.1
  let param := p.2
  if param.default.isSome || !param.required then
    let param_str :=
      match param.default with
      | some d =>
        param_name ++ "=" ++
          (if param.param_type == "string" then "\x27" ++ d.pyStr ++ "\x27" else d.pyStr)
      | none => if !param.required then param_name ++ "=None" else param_name
    (acc.1, acc.2 ++ [param_str])
  else (acc.1 ++ [param_name], acc.2)

/-- The full rendered parameter list of a method: Python locals after the
loop, with `optional_params.append('_request_options=None')` and
`params.extend(optional_params)` (lines 134-135). -/
def signature_params {V : Type} (operation : Operation V) : List String :=
  let acc := operation.params.foldl signature_loop_body (["self"], [])
  acc.1 ++ (acc.2 ++ ["_request_options=None"])

/-- Embedding of `_generate_operation_signature` (lines 113-142). -/
def _generate_operation_signature {V : Type} (op_name : String) (operation : Operation V) :
    List String :=
  ["", "    def " ++ op_name ++ "(" ++ String.intercalate ", " (signature_params operation)
    ++ "):"]

/-- Test from the claim: a parameter goes to the trailing `optional_params`
group exactly when it has a default or is not required. -/
def isOptionalParam (p : String × Param) : Bool := p.2.default.isSome || !p.2.required

/-- Rendering of a defaulted/optional parameter, per the claim: `name=` then
the quoted default for string-typed parameters, the native literal for other
types, and `None` when optional without a default. -/
def renderedDefault (p : String × Param) : String :=
  match p.2.default with
  | some d =>
    p.1 ++ "=" ++
      (if p.2.param_type == "string" then "\x27" ++ d.pyStr ++ "\x27" else d.pyStr)
  | none => if !p.2.required then p.1 ++ "=None" else p.1

theorem signature_foldl (ps : List (String × Param)) (a b : List String) :
    ps.foldl signature_loop_body (a, b) =
      (a ++ (ps.filter (fun p => !isOptionalParam p)).map Prod.fst,
       b ++ (ps.filter isOptionalParam).map renderedDefault) := by
  induction ps generalizing a b with
  | nil => simp
  | cons p ps ih =>
    by_cases hp : isOptionalParam p
    · have hbody : signature_loop_body (a, b) p = (a, b ++ [renderedDefault p]) := by
        simp only [signature_loop_body, renderedDefault, isOptionalParam] at hp ⊢
        rw [if_pos hp]
      simp only [List.foldl_cons, hbody, ih, List.filter_cons, hp]
      simp
    · have hp2 : isOptionalParam p = false := by simpa using hp
      have hbody : signature_loop_body (a, b) p = (a ++ [p.1], b) := by
        simp only [signature_loop_body, isOptionalParam] at hp2 ⊢
        rw [if_neg (by simp [hp2])]
      simp only [List.foldl_cons, hbody, ih, List.filter_cons, hp2]
      simp

/-- C3: for every operation the rendered parameter list is: `self`, then
every required parameter without a default in original collection order as a
bare name, then every parameter that has a default or is not required in
original collection order as `name=rendered_default` (`None` when optional
without default), then exactly one trailing `_request_options=None`. -/
theorem signature_ordering {V : Type} (op_name : String) (operation : Operation V) :
    _generate_operation_signature op_name operation =
      ["", "    def " ++ op_name ++ "(" ++ String.intercalate ", "
        ("self" :: (operation.params.filter (fun p => !isOptionalParam p)).map Prod.fst
          ++ ((operation.params.filter isOptionalParam).map renderedDefault
            ++ ["_request_options=None"])) ++ "):"] := by
  simp [_generate_operation_signature, signature_params, signature_foldl]

/-- Sanity instance of the claim example: parameters
`{x: required, y: optional default=5, z: required}` render as
`(self, x, z, y=5, _request_options=None)`. -/
theorem signature_ordering_example :
    _generate_operation_signature "f"
      (⟨"f", [("x", ⟨true, none, "integer"⟩), ("y", ⟨false, some (.int 5), "integer"⟩),
        ("z", ⟨true, none, "integer"⟩)], []⟩ : Operation ℕ) =
      ["", "    def f(self, x, z, y=5, _request_options=None):"] := by rfl

/-- C4 (counterexample): on an operation whose parameter collection holds
the name `x` twice (both required, no default), the Signature Builder does
not signal any error: it totally returns an ordinary signature in which `x`
collides, occurring twice. -/
theorem signature_duplicate_counterexample :
    _generate_operation_signature "f"
      (⟨"f", [("x", ⟨true, none, "integer"⟩), ("x", ⟨true, none, "integer"⟩)], []⟩
        : Operation ℕ) =
      ["", "    def f(self, x, x, _request_options=None):"] := by rfl

/-- C4 (amended): the Signature Builder performs no duplicate-name check and
has no error outcome: for every operation it returns a rendered parameter
list with exactly one entry per parameter-collection entry plus the two
synthetic entries `self` and `_request_options=None`, so duplicate names in
the collection collide in the rendered list instead of raising a
spec-integrity error (in the real pipeline duplicates are collapsed earlier
by the name-keyed parameter dict of the external spec model). -/
theorem signature_no_duplicate_check {V : Type} (operation : Operation V) :
    (signature_params operation).length = operation.params.length + 2 := by
  have hpart : operation.params.length = (operation.params.filter isOptionalParam).length +
      (operation.params.filter (fun p => !isOptionalParam p)).length :=
    List.length_eq_length_filter_add _
  simp [signature_params, signature_foldl]
  omega

/-- C6: a parameter with an explicit default renders as `name=` followed by
the default wrapped in quote characters when the declared type tag is the
string type, and by its native literal form otherwise; concretely a
string-typed default `hello` renders as `y='hello'` and an integer-typed
default `5` as `y=5`. -/
theorem default_rendering :
    (∀ (V : Type) (op_name oid n ty : String) (req : Bool) (d : DefaultVal)
      (rs : List (String × V)),
      _generate_operation_signature op_name (⟨oid, [(n, ⟨req, some d, ty⟩)], rs⟩ : Operation V) =
        ["", "    def " ++ op_name ++ "(" ++ String.intercalate ", "
          ["self",
           n ++ "=" ++ (if ty == "string" then "\x27" ++ d.pyStr ++ "\x27" else d.pyStr),
           "_request_options=None"] ++ "):"]) ∧
    _generate_operation_signature "f"
      (⟨"f", [("y", ⟨true, some (.str "hello"), "string"⟩)], []⟩ : Operation ℕ) =
      ["", "    def f(self, y=\x27hello\x27, _request_options=None):"] ∧
    _generate_operation_signature "f"
      (⟨"f", [("y", ⟨true, some (.int 5), "integer"⟩)], []⟩ : Operation ℕ) =
      ["", "    def f(self, y=5, _request_options=None):"] := by
  refine ⟨?_, by rfl, by rfl⟩
  intro V op_name oid n ty req d rs
  simp [_generate_operation_signature, signature_params, signature_foldl, isOptionalParam,
    renderedDefault, signature_loop_body]

/-- Embedding of `CLIENT_HEADER.format(service_name=service_name)`
(lines 11-30 and 62-64). -/
def CLIENT_HEADER (service_name : String) : String :=
  "# -*- coding: utf-8 -*-\nfrom __future__ import absolute_import\nfrom __future__ import unicode_literals\n\nimport logging\n\nfrom bravado.client import SwaggerClient\nfrom bravado.client import construct_request\nfrom bravado.config import RequestConfig\nfrom bravado.http_client import HttpClient\nfrom bravado.http_future import HttpFuture\nfrom bravado.response import BravadoResponseMetadata\nfrom bravado.warning import warn_for_deprecated_op\n\n\nlog = logging.getLogger(__name__)\n\n\nclass "
  ++ service_name ++ "Client(SwaggerClient):\n"

/-- Embedding of `_generate_resource_property` (lines 82-89). -/
def _generate_resource_property (resource_name : String) : String :=
  "\n    @property\n    def " ++ resource_name ++ "(self):\n        return "
  ++ resource_name ++ "_Resource(self.swagger_spec)"

/-- Embedding of `_generate_operation_body` (lines 145-171). -/
def _generate_operation_body {V : Type} (operation : Operation V) (resource_name : String) :
    List String :=
  let params := operation.params.map (fun p => p.1 ++ "=" ++ p.1)
  ["        operation = self._swagger_spec.resources[\x27" ++ resource_name ++ "\x27]."
    ++ operation.operation_id
    ++ "\n        # TODO: debug logging\n        warn_for_deprecated_op(operation)\n        # Get per-request config\n        request_options = _request_options or \x7b\x7d\n        request_options[\x27http_future_class\x27] = "
    ++ operation.operation_id
    ++ "HttpFuture\n        request_config = RequestConfig(request_options, also_return_response_default=False)\n\n        request_params = construct_request(\n            operation, request_options, "
    ++ String.intercalate ", " params
    ++ "\n        )\n\n        http_client = operation.swagger_spec.http_client\n\n        return http_client.request(\n            request_params,\n            operation=operation,\n            request_config=request_config,\n        )"]

/-- Embedding of `_generate_operation_http_future` (lines 174-180). -/
def _generate_operation_http_future {V : Type} (operation : Operation V)
    (response_spec : Option V) : List String :=
  ["", "", "class " ++ operation.operation_id ++ "HttpFuture(HttpFuture):", "    pass"]

/-- C10: the emitted wrapper block depends only on the operation identifier:
for any two results of the Response Selector (the absent value included) the
emitted text is identical. -/
theorem http_future_ignores_response_spec {V : Type} (operation : Operation V)
    (response_spec1 response_spec2 : Option V) :
    _generate_operation_http_future operation response_spec1 =
      _generate_operation_http_future operation response_spec2 := rfl

/-- Embedding of `_generate_resource_class` (lines 92-110): the class intro
and `__init__` block, one signature and body per operation in sorted
operation-name order, then one HttpFuture wrapper block per operation in
sorted operation-name order, each fed the Response Selector's result. -/
def _generate_resource_class {V : Type} (falsy : V → Bool) (deref : Option V → Option V)
    (resource : Resource V) : List String :=
  ["\n\nclass " ++ resource.name ++ "_Resource():"]
  ++ ["\n    def __init__(self, swagger_spec):\n        self._swagger_spec = swagger_spec"]
  ++ (pySortPairs resource.operations).bind
      (fun p => _generate_operation_signature p.1 p.2
        ++ _generate_operation_body p.2 resource.name)
  ++ (pySortPairs resource.operations).bind
      (fun p => _generate_operation_http_future p.2
        (_get_happy_path_response_spec falsy deref p.2.responses))

/-- The `file_lines` list built by `generate_client` (lines 58-72): header,
one resource accessor per resource name in sorted order, then each resource
class in sorted resource-key order. -/
def file_lines {V : Type} (falsy : V → Bool) (deref : Option V → Option V)
    (swagger_spec : Spec V) (service_name : String) : List String :=
  [CLIENT_HEADER service_name]
  ++ (pySortedStrings (swagger_spec.resources.map Prod.fst)).map _generate_resource_property
  ++ (pySortPairs swagger_spec.resources).bind
      (fun p => _generate_resource_class falsy deref p.2)

/-- Embedding of `generate_client` (lines 58-74): the text passed to
`print`, i.e. `'\n'.join(file_lines)`. -/
def generate_client {V : Type} (falsy : V → Bool) (deref : Option V → Option V)
    (swagger_spec : Spec V) (service_name : String) : String :=
  String.intercalate "\n" (file_lines falsy deref swagger_spec service_name)

/-- Joining of text blocks with exactly one newline between consecutive
blocks and each block kept verbatim: the claim-side description of the
renderer, written as direct recursion. -/
def joinLines : List String → String
  | [] => ""
  | [b] => b
  | b :: bs => b ++ "\n" ++ joinLines bs

theorem joinLines_append_head (bs : List String) (a b : String) :
    joinLines ((a ++ b) :: bs) = a ++ joinLines (b :: bs) := by
  cases bs with
  | nil => rfl
  | cons c cs => simp only [joinLines, String.append_assoc]

theorem intercalate_go_joinLines (bs : List String) (acc : String) :
    String.intercalate.go acc "\n" bs = joinLines (acc :: bs) := by
  induction bs generalizing acc with
  | nil => rfl
  | cons b bs ih =>
    show String.intercalate.go (acc ++ "\n" ++ b) "\n" bs = joinLines (acc :: b :: bs)
    rw [ih (acc ++ "\n" ++ b), String.append_assoc, joinLines_append_head,
      joinLines_append_head,
      show joinLines (acc :: b :: bs) = acc ++ "\n" ++ joinLines (b :: bs) from rfl,
      String.append_assoc]

/-- C9 (amended): the Renderer produces the final output by joining the
ordered text blocks with exactly one newline character between consecutive
blocks, without transforming any block contents; blank lines between logical
declarations arise from empty-string blocks and embedded newlines inside the
blocks themselves, not from the join separator. -/
theorem renderer_single_newline {V : Type} (falsy : V → Bool) (deref : Option V → Option V)
    (swagger_spec : Spec V) (service_name : String) :
    generate_client falsy deref swagger_spec service_name =
      joinLines (file_lines falsy deref swagger_spec service_name) := by
  unfold generate_client
  cases h : file_lines falsy deref swagger_spec service_name with
  | nil => rfl
  | cons a as => exact intercalate_go_joinLines as a

/-- C9 (counterexample): for a concrete one-resource spec, the rendered
output is the single-newline join of the block list and differs from the
text that joining each pair of consecutive blocks with a blank line (a
double newline) would produce. -/
theorem renderer_blank_line_counterexample :
    generate_client (fun n : ℕ => n == 0) (fun r => r) ⟨[("a", ⟨"a", []⟩)]⟩ "Svc" =
      String.intercalate "\n"
        (file_lines (fun n : ℕ => n == 0) (fun r => r) ⟨[("a", ⟨"a", []⟩)]⟩ "Svc") ∧
    generate_client (fun n : ℕ => n == 0) (fun r => r) ⟨[("a", ⟨"a", []⟩)]⟩ "Svc" ≠
      String.intercalate "\n\n"
        (file_lines (fun n : ℕ => n == 0) (fun r => r) ⟨[("a", ⟨"a", []⟩)]⟩ "Svc") := by
  refine ⟨rfl, ?_⟩
  decide

/-- C5 (counterexample): for a spec with resources `a` and `b` holding one
operation each, the wrapper-type block of operation `opa` (its class line is
at index 10 of the emitted block list) precedes the class block of resource
`b` (index 12), so wrapper types are not all emitted after all resource
class blocks. -/
theorem wrapper_placement_counterexample :
    (file_lines (fun n : ℕ => n == 0) (fun r => r)
        ⟨[("a", ⟨"a", [("opa", ⟨"opa", [], []⟩)]⟩), ("b", ⟨"b", [("opb", ⟨"opb", [], []⟩)]⟩)]⟩
        "Svc").get? 10 = some "class opaHttpFuture(HttpFuture):" ∧
    (file_lines (fun n : ℕ => n == 0) (fun r => r)
        ⟨[("a", ⟨"a", [("opa", ⟨"opa", [], []⟩)]⟩), ("b", ⟨"b", [("opb", ⟨"opb", [], []⟩)]⟩)]⟩
        "Svc").get? 12 = some "\n\nclass b_Resource():" := by
  constructor
  · rfl
  · rfl

/-- Marker test used to count wrapper-type blocks: exactly one emitted line
per wrapper block (its `    pass` body) satisfies it, and no other line kind
can, since every other emitted line differs in length or content. -/
def isPassLine (l : String) : Bool := l == "    pass"

theorem ne_pass_of_length_ne {s : String} (h : s.length ≠ 8) : isPassLine s = false := by
  rw [isPassLine, beq_eq_false_iff_ne]
  intro he
  exact h (by rw [he]; decide)

theorem ne_pass_of_right (s t : String) (h : 8 < t.length) : isPassLine (s ++ t) = false := by
  apply ne_pass_of_length_ne
  rw [String.length_append]
  omega

theorem sig_line_ne_pass (a b : String) :
    isPassLine ("    def " ++ a ++ "(" ++ b ++ "):") = false := by
  apply ne_pass_of_length_ne
  simp only [String.length_append]
  have h1 : ("    def " : String).length = 8 := by decide
  have h2 : ("(" : String).length = 1 := by decide
  have h3 : ("):" : String).length = 2 := by decide
  omega

theorem countP_pass_sig {V : Type} (op_name : String) (op : Operation V) :
    (_generate_operation_signature op_name op).countP isPassLine = 0 := by
  simp only [_generate_operation_signature, List.countP_cons, List.countP_nil,
    sig_line_ne_pass, show isPassLine "" = false from by decide]
  simp

theorem countP_pass_body {V : Type} (op : Operation V) (rn : String) :
    (_generate_operation_body op rn).countP isPassLine = 0 := by
  simp only [_generate_operation_body, List.countP_cons, List.countP_nil]
  rw [ne_pass_of_right]
  · simp
  · decide

theorem countP_pass_http_future {V : Type} (op : Operation V) (rs : Option V) :
    (_generate_operation_http_future op rs).countP isPassLine = 1 := by
  simp only [_generate_operation_http_future, List.countP_cons, List.countP_nil,
    show isPassLine "" = false from by decide,
    show isPassLine "    pass" = true from by decide]
  rw [ne_pass_of_right]
  · simp
  · decide

theorem countP_bind_eq_sum {α β : Type} (l : List α) (f : α → List β) (p : β → Bool) :
    (l.bind f).countP p = (l.map fun a => (f a).countP p).sum := by
  induction l with
  | nil => rfl
  | cons a l ih => simp [List.cons_bind, List.countP_append, ih]

theorem sum_map_one {α : Type} (l : List α) : (l.map fun _ => (1 : ℕ)).sum = l.length := by
  induction l with
  | nil => rfl
  | cons a l ih =>
    simp [ih]
    omega

theorem countP_pass_resource_class {V : Type} (falsy : V → Bool)
    (deref : Option V → Option V) (resource : Resource V) :
    (_generate_resource_class falsy deref resource).countP isPassLine =
      resource.operations.length := by
  simp only [_generate_resource_class, List.countP_append, countP_bind_eq_sum,
    List.countP_cons, List.countP_nil,
    show isPassLine "\n    def __init__(self, swagger_spec):\n        self._swagger_spec = swagger_spec" = false from by decide]
  rw [show isPassLine ("\n\nclass " ++ resource.name ++ "_Resource():") = false from
    ne_pass_of_right _ _ (by decide)]
  have hm : ((pySortPairs resource.operations).map fun p =>
      (_generate_operation_signature p.1 p.2).countP isPassLine
        + (_generate_operation_body p.2 resource.name).countP isPassLine).sum = 0 := by
    apply List.sum_eq_zero
    intro x hx
    obtain ⟨p, hp, rfl⟩ := List.mem_map.mp hx
    simp [countP_pass_sig, countP_pass_body]
  have hw : ((pySortPairs resource.operations).map fun p =>
      (_generate_operation_http_future p.2
        (_get_happy_path_response_spec falsy deref p.2.responses)).countP isPassLine).sum =
      (pySortPairs resource.operations).length := by
    have hmap : ((pySortPairs resource.operations).map fun p =>
        (_generate_operation_http_future p.2
          (_get_happy_path_response_spec falsy deref p.2.responses)).countP isPassLine) =
        ((pySortPairs resource.operations).map fun _ => (1 : ℕ)) := by
      apply List.map_congr_left
      intro p hp
      exact countP_pass_http_future p.2 _
    rw [hmap, sum_map_one]
  rw [hm, hw]
  have hlen : (pySortPairs resource.operations).length = resource.operations.length :=
    (List.perm_insertionSort pyKeyRel resource.operations).length_eq
  rw [hlen]
  simp

/-- C5 (amended): the emitted output contains exactly one result-wrapper
type declaration per operation — the number of wrapper-type blocks (counted
by their unique `    pass` body lines) equals the total operation count over
all resources.  The blocks are not gathered after all resource class blocks:
each resource's wrapper blocks follow that resource's method blocks inside
its own segment (see the counterexample), in sorted operation order within
the resource and sorted resource order across resources. -/
theorem wrapper_block_count {V : Type} (falsy : V → Bool) (deref : Option V → Option V)
    (swagger_spec : Spec V) (service_name : String) :
    (file_lines falsy deref swagger_spec service_name).countP isPassLine =
      (swagger_spec.resources.map fun p => p.2.operations.length).sum := by
  simp only [file_lines, List.countP_append, countP_bind_eq_sum, List.countP_cons,
    List.countP_nil]
  rw [show isPassLine (CLIENT_HEADER service_name) = false from by
    simp only [CLIENT_HEADER]
    rw [ne_pass_of_right]
    decide]
  have hacc : ((pySortedStrings (swagger_spec.resources.map Prod.fst)).map
      _generate_resource_property).countP isPassLine = 0 := by
    apply List.countP_eq_zero.mpr
    intro x hx
    obtain ⟨nm, hnm, rfl⟩ := List.mem_map.mp hx
    simp only [_generate_resource_property]
    rw [ne_pass_of_right]
    · simp
    · decide
  have hcls : ((pySortPairs swagger_spec.resources).map fun p =>
      (_generate_resource_class falsy deref p.2).countP isPassLine).sum =
      (swagger_spec.resources.map fun p => p.2.operations.length).sum := by
    have hmap : ((pySortPairs swagger_spec.resources).map fun p =>
        (_generate_resource_class falsy deref p.2).countP isPassLine) =
        ((pySortPairs swagger_spec.resources).map fun p => p.2.operations.length) := by
      apply List.map_congr_left
      intro p hp
      exact countP_pass_resource_class falsy deref p.2
    rw [hmap]
    exact ((List.perm_insertionSort pyKeyRel swagger_spec.resources).map
      fun p => p.2.operations.length).sum_eq
  rw [hcls, hacc]
  simp

/-- Equality test of two char lists, used by the line classifiers below. -/
def charsEq : List Char → List Char → Bool
  | [], [] => true
  | a :: as, b :: bs => a == b && charsEq as bs
  | _, _ => false

/-- Classifier of resource-accessor declaration blocks in the emitted block
list: exactly the blocks whose first eight characters read `"\n    @pr"`. -/
def isAccessorLine (l : String) : Bool :=
  charsEq (l.data.take 8) ['\n', ' ', ' ', ' ', ' ', '@', 'p', 'r']

/-- Classifier of resource class declaration blocks: exactly the blocks
whose first eight characters read `"\n\nclass "`. -/
def isClassIntroLine (l : String) : Bool :=
  charsEq (l.data.take 8) ['\n', '\n', 'c', 'l', 'a', 's', 's', ' ']

/-- Classifier of operation method declaration lines: exactly the lines
whose first eight characters read `"    def "`. -/
def isMethodDefLine (l : String) : Bool :=
  charsEq (l.data.take 8) [' ', ' ', ' ', ' ', 'd', 'e', 'f', ' ']

theorem filter_bind {α β : Type} (l : List α) (f : α → List β) (p : β → Bool) :
    (l.bind f).filter p = l.bind fun a => (f a).filter p := by
  induction l with
  | nil => rfl
  | cons a l ih => simp [List.cons_bind, List.filter_append, ih]

theorem bind_singleton_eq_map {α β : Type} (l : List α) (g : α → β) :
    (l.bind fun a => [g a]) = l.map g := by
  induction l with
  | nil => rfl
  | cons a l ih => simp [List.cons_bind, ih]

theorem bind_nil {α β : Type} (l : List α) : (l.bind fun _ => ([] : List β)) = [] := by
  induction l with
  | nil => rfl
  | cons a l ih => simp_all [List.cons_bind]

/-- Keys of the sorted items coincide with the sorted keys: Python sorts the
dict items by key, so projecting the keys yields `sorted(keys)`. -/
theorem map_fst_sortPairs {α : Type} (l : List (String × α)) :
    (pySortPairs l).map Prod.fst = pySortedStrings (l.map Prod.fst) := by
  apply List.eq_of_perm_of_sorted (r := pyLeRel)
  · exact ((List.perm_insertionSort pyKeyRel l).map Prod.fst).trans
      (List.perm_insertionSort pyLeRel (l.map Prod.fst)).symm
  · exact List.pairwise_map.mpr (List.sorted_insertionSort pyKeyRel l)
  · exact List.sorted_insertionSort pyLeRel _

theorem filter_acc_resource_class {V : Type} (falsy : V → Bool)
    (deref : Option V → Option V) (resource : Resource V) :
    (_generate_resource_class falsy deref resource).filter isAccessorLine = [] := by
  simp only [_generate_resource_class, List.filter_append, filter_bind]
  have hsig : ∀ p : String × Operation V,
      (_generate_operation_signature p.1 p.2).filter isAccessorLine = [] := fun p => rfl
  have hbody : ∀ p : String × Operation V,
      (_generate_operation_body p.2 resource.name).filter isAccessorLine = [] := fun p => rfl
  have hhttp : ∀ p : String × Operation V,
      ((_generate_operation_http_future p.2
        (_get_happy_path_response_spec falsy deref p.2.responses)).filter isAccessorLine) = [] :=
    fun p => rfl
  simp only [hsig, hbody, hhttp, List.append_nil, bind_nil]
  rfl

theorem filter_intro_resource_class {V : Type} (falsy : V → Bool)
    (deref : Option V → Option V) (resource : Resource V) :
    (_generate_resource_class falsy deref resource).filter isClassIntroLine =
      ["\n\nclass " ++ resource.name ++ "_Resource():"] := by
  simp only [_generate_resource_class, List.filter_append, filter_bind]
  have hsig : ∀ p : String × Operation V,
      (_generate_operation_signature p.1 p.2).filter isClassIntroLine = [] := fun p => rfl
  have hbody : ∀ p : String × Operation V,
      (_generate_operation_body p.2 resource.name).filter isClassIntroLine = [] := fun p => rfl
  have hhttp : ∀ p : String × Operation V,
      ((_generate_operation_http_future p.2
        (_get_happy_path_response_spec falsy deref p.2.responses)).filter isClassIntroLine) = [] :=
    fun p => rfl
  simp only [hsig, hbody, hhttp, List.append_nil, bind_nil]
  rfl

theorem filter_def_resource_class {V : Type} (falsy : V → Bool)
    (deref : Option V → Option V) (resource : Resource V) :
    (_generate_resource_class falsy deref resource).filter isMethodDefLine =
      (pySortPairs resource.operations).map fun p =>
        "    def " ++ p.1 ++ "(" ++ String.intercalate ", " (signature_params p.2) ++ "):" := by
  simp only [_generate_resource_class, List.filter_append, filter_bind]
  have hsig : ∀ p : String × Operation V,
      (_generate_operation_signature p.1 p.2).filter isMethodDefLine =
      ["    def " ++ p.1 ++ "(" ++ String.intercalate ", " (signature_params p.2) ++ "):"] :=
    fun p => rfl
  have hbody : ∀ p : String × Operation V,
      (_generate_operation_body p.2 resource.name).filter isMethodDefLine = [] := fun p => rfl
  have hhttp : ∀ p : String × Operation V,
      ((_generate_operation_http_future p.2
        (_get_happy_path_response_spec falsy deref p.2.responses)).filter isMethodDefLine) = [] :=
    fun p => rfl
  simp only [hsig, hbody, hhttp, List.append_nil, bind_nil, bind_singleton_eq_map]
  rfl

/-- C7: resource-accessor blocks and resource class blocks are each emitted
in sorted (lexicographic, by Unicode code point — Python `sorted`) order of
resource name, and within each resource class the operation method lines
appear in sorted operation-name order: filtering the emitted block list for
accessor blocks yields exactly the accessors of the sorted resource names,
filtering for class declarations yields the class lines of the sorted
resource names, the sorted name list is sorted and a permutation of the
original names, and the method lines of every resource class are those of
its sorted operation items. -/
theorem emission_order {V : Type} (falsy : V → Bool) (deref : Option V → Option V)
    (swagger_spec : Spec V) (service_name : String)
    (hname : ∀ p ∈ swagger_spec.resources, (p.2).name = p.1) :
    (file_lines falsy deref swagger_spec service_name).filter isAccessorLine =
      (pySortedStrings (swagger_spec.resources.map Prod.fst)).map _generate_resource_property ∧
    (file_lines falsy deref swagger_spec service_name).filter isClassIntroLine =
      (pySortedStrings (swagger_spec.resources.map Prod.fst)).map
        (fun nm => "\n\nclass " ++ nm ++ "_Resource():") ∧
    List.Sorted pyLeRel (pySortedStrings (swagger_spec.resources.map Prod.fst)) ∧
    (pySortedStrings (swagger_spec.resources.map Prod.fst)).Perm
      (swagger_spec.resources.map Prod.fst) ∧
    ∀ resource : Resource V,
      (_generate_resource_class falsy deref resource).filter isMethodDefLine =
        (pySortPairs resource.operations).map (fun p =>
          "    def " ++ p.1 ++ "(" ++ String.intercalate ", " (signature_params p.2) ++ "):") ∧
      List.Sorted pyLeRel ((pySortPairs resource.operations).map Prod.fst) ∧
      ((pySortPairs resource.operations).map Prod.fst).Perm
        (resource.operations.map Prod.fst) := by
  refine ⟨?_, ?_, List.sorted_insertionSort pyLeRel _, List.perm_insertionSort pyLeRel _,
    fun resource => ⟨filter_def_resource_class falsy deref resource,
      List.pairwise_map.mpr (List.sorted_insertionSort pyKeyRel _),
      (List.perm_insertionSort pyKeyRel _).map Prod.fst⟩⟩
  · simp only [file_lines, List.filter_append, filter_bind]
    have hcls : ∀ p : String × Resource V,
        (_generate_resource_class falsy deref p.2).filter isAccessorLine = [] :=
      fun p => filter_acc_resource_class falsy deref p.2
    have hself : ((pySortedStrings (swagger_spec.resources.map Prod.fst)).map
        _generate_resource_property).filter isAccessorLine =
        (pySortedStrings (swagger_spec.resources.map Prod.fst)).map
          _generate_resource_property := by
      apply List.filter_eq_self.mpr
      intro x hx
      obtain ⟨nm, hnm, rfl⟩ := List.mem_map.mp hx
      rfl
    rw [show ([CLIENT_HEADER service_name].filter isAccessorLine) = [] from rfl, hself]
    simp only [hcls, bind_nil, List.append_nil, List.nil_append]
  · simp only [file_lines, List.filter_append, filter_bind]
    have hcls : ∀ p : String × Resource V,
        (_generate_resource_class falsy deref p.2).filter isClassIntroLine =
        ["\n\nclass " ++ p.2.name ++ "_Resource():"] :=
      fun p => filter_intro_resource_class falsy deref p.2
    have hacc : ((pySortedStrings (swagger_spec.resources.map Prod.fst)).map
        _generate_resource_property).filter isClassIntroLine = [] := by
      apply List.filter_eq_nil_iff.mpr
      intro x hx
      obtain ⟨nm, hnm, rfl⟩ := List.mem_map.mp hx
      intro hcontra
      exact absurd ((show isClassIntroLine (_generate_resource_property nm) = false from
        rfl) ▸ hcontra) (by simp)
    rw [show ([CLIENT_HEADER service_name].filter isClassIntroLine) = [] from rfl, hacc]
    simp only [hcls, bind_singleton_eq_map, List.nil_append]
    have hmap : (pySortPairs swagger_spec.resources).map
        (fun p => "\n\nclass " ++ p.2.name ++ "_Resource():") =
        (pySortPairs swagger_spec.resources).map
          (fun p => "\n\nclass " ++ p.1 ++ "_Resource():") := by
      apply List.map_congr_left
      intro p hp
      rw [hname p ((List.perm_insertionSort pyKeyRel swagger_spec.resources).mem_iff.mp hp)]
    rw [hmap, show (fun p : String × Resource V => "\n\nclass " ++ p.1 ++ "_Resource():") =
      ((fun nm => "\n\nclass " ++ nm ++ "_Resource():") ∘ Prod.fst) from rfl,
      ← List.map_map, map_fst_sortPairs]

/-- Sample spec used by witnesses: resources named "b" and "a" inserted in
that order, one operation each. -/
def sampleSpec : Spec ℕ :=
  ⟨[("b", ⟨"b", [("opb", ⟨"opb", [], []⟩)]⟩), ("a", ⟨"a", [("opa", ⟨"opa", [], []⟩)]⟩)]⟩

/-- C7 (witness): instance of `emission_order` on `sampleSpec`, whose
resources are supplied in the order `b`, `a`. -/
theorem emission_order_witness :
    (file_lines (fun n : ℕ => n == 0) (fun r => r) sampleSpec "Svc").filter isAccessorLine =
      (pySortedStrings (sampleSpec.resources.map Prod.fst)).map _generate_resource_property ∧
    (file_lines (fun n : ℕ => n == 0) (fun r => r) sampleSpec "Svc").filter isClassIntroLine =
      (pySortedStrings (sampleSpec.resources.map Prod.fst)).map
        (fun nm => "\n\nclass " ++ nm ++ "_Resource():") ∧
    List.Sorted pyLeRel (pySortedStrings (sampleSpec.resources.map Prod.fst)) ∧
    (pySortedStrings (sampleSpec.resources.map Prod.fst)).Perm
      (sampleSpec.resources.map Prod.fst) ∧
    ∀ resource : Resource ℕ,
      (_generate_resource_class (fun n : ℕ => n == 0) (fun r => r) resource).filter
          isMethodDefLine =
        (pySortPairs resource.operations).map (fun p =>
          "    def " ++ p.1 ++ "(" ++ String.intercalate ", " (signature_params p.2) ++ "):") ∧
      List.Sorted pyLeRel ((pySortPairs resource.operations).map Prod.fst) ∧
      ((pySortPairs resource.operations).map Prod.fst).Perm
        (resource.operations.map Prod.fst) :=
  emission_order (fun n : ℕ => n == 0) (fun r => r) sampleSpec "Svc" (by decide)

/-- Strict version of the key ordering: used to derive uniqueness of the
sorted item list when keys are duplicate-free. -/
def pyKeyStrict {α : Type} (a b : String × α) : Prop :=
  pyLe a.1 b.1 = true ∧ a.1 ≠ b.1

instance {α : Type} : IsAntisymm (String × α) pyKeyStrict :=
  ⟨fun a b h1 h2 => absurd (pyLe_antisymm a.1 b.1 h1.1 h2.1) h1.2⟩

theorem sorted_strict_of_nodup {α : Type} (l : List (String × α))
    (hs : List.Sorted (pyKeyRel (α := α)) l) (hnd : (l.map Prod.fst).Nodup) :
    List.Sorted (pyKeyStrict (α := α)) l := by
  have hne : List.Pairwise (fun a b : String × α => a.1 ≠ b.1) l := List.pairwise_map.mp hnd
  exact (hs.and hne).imp fun h => ⟨h.1, h.2⟩

/-- Sorting the items of a dict with duplicate-free keys is insensitive to
the iteration order the items arrive in. -/
theorem pySortPairs_eq_of_perm {α : Type} (l1 l2 : List (String × α)) (h : l1.Perm l2)
    (hnd : (l1.map Prod.fst).Nodup) : pySortPairs l1 = pySortPairs l2 := by
  apply List.eq_of_perm_of_sorted (r := pyKeyStrict)
  · exact (List.perm_insertionSort pyKeyRel l1).trans
      (h.trans (List.perm_insertionSort pyKeyRel l2).symm)
  · apply sorted_strict_of_nodup _ (List.sorted_insertionSort _ _)
    exact (((List.perm_insertionSort pyKeyRel l1).map Prod.fst).nodup_iff).mpr hnd
  · apply sorted_strict_of_nodup _ (List.sorted_insertionSort _ _)
    exact ((((List.perm_insertionSort pyKeyRel l2).map Prod.fst).trans
      ((h.symm).map Prod.fst)).nodup_iff).mpr hnd

/-- Sorting a list of strings is insensitive to iteration order. -/
theorem pySortedStrings_eq_of_perm (l1 l2 : List String) (h : l1.Perm l2) :
    pySortedStrings l1 = pySortedStrings l2 :=
  List.eq_of_perm_of_sorted
    ((List.perm_insertionSort pyLeRel l1).trans
      (h.trans (List.perm_insertionSort pyLeRel l2).symm))
    (List.sorted_insertionSort pyLeRel l1) (List.sorted_insertionSort pyLeRel l2)

/-- Relation between two resource entries of two Specs: same key, same
resource name, operation items equal up to iteration order. -/
def ResourcePairEquiv {V : Type} (p q : String × Resource V) : Prop :=
  p.1 = q.1 ∧ p.2.name = q.2.name ∧ p.2.operations.Perm q.2.operations

theorem forall2_orderedInsert {V : Type} (x y : String × Resource V)
    (l1 l2 : List (String × Resource V)) (hxy : ResourcePairEquiv x y)
    (h : List.Forall₂ ResourcePairEquiv l1 l2) :
    List.Forall₂ ResourcePairEquiv
      (l1.orderedInsert pyKeyRel x) (l2.orderedInsert pyKeyRel y) := by
  induction h with
  | nil => exact List.Forall₂.cons hxy List.Forall₂.nil
  | @cons a b l1 l2 hab hl ih =>
    simp only [List.orderedInsert]
    have hiff : pyKeyRel x a ↔ pyKeyRel y b := by
      unfold pyKeyRel
      rw [hxy.1, hab.1]
    by_cases hc : pyKeyRel x a
    · rw [if_pos hc, if_pos (hiff.mp hc)]
      exact List.Forall₂.cons hxy (List.Forall₂.cons hab hl)
    · rw [if_neg hc, if_neg (fun hcon => hc (hiff.mpr hcon))]
      exact List.Forall₂.cons hab ih

theorem forall2_sortPairs {V : Type} (l1 l2 : List (String × Resource V))
    (h : List.Forall₂ ResourcePairEquiv l1 l2) :
    List.Forall₂ ResourcePairEquiv (pySortPairs l1) (pySortPairs l2) := by
  unfold pySortPairs
  induction h with
  | nil => exact List.Forall₂.nil
  | cons hab hl ih =>
    simp only [List.insertionSort]
    exact forall2_orderedInsert _ _ _ _ hab ih

theorem forall2_map_fst {V : Type} (l1 l2 : List (String × Resource V))
    (h : List.Forall₂ ResourcePairEquiv l1 l2) : l1.map Prod.fst = l2.map Prod.fst := by
  induction h with
  | nil => rfl
  | cons hab hl ih => simp [hab.1, ih]

/-- The emitted class block of a resource depends only on its name and on
its operation items up to iteration order (with duplicate-free operation
names), because the operations are sorted before emission. -/
theorem resource_class_congr {V : Type} (falsy : V → Bool) (deref : Option V → Option V)
    (r1 r2 : Resource V) (hn : r1.name = r2.name) (hperm : r1.operations.Perm r2.operations)
    (hnd : (r1.operations.map Prod.fst).Nodup) :
    _generate_resource_class falsy deref r1 = _generate_resource_class falsy deref r2 := by
  unfold _generate_resource_class
  rw [hn, pySortPairs_eq_of_perm _ _ hperm hnd]

theorem bind_class_forall2 {V : Type} (falsy : V → Bool) (deref : Option V → Option V)
    (l1 l2 : List (String × Resource V)) (h : List.Forall₂ ResourcePairEquiv l1 l2)
    (hnd : ∀ p ∈ l1, ((p.2).operations.map Prod.fst).Nodup) :
    (l1.bind fun p => _generate_resource_class falsy deref p.2) =
      (l2.bind fun p => _generate_resource_class falsy deref p.2) := by
  induction h with
  | nil => rfl
  | @cons a b l1 l2 hab hl ih =>
    show (_generate_resource_class falsy deref a.2
        ++ l1.bind fun p => _generate_resource_class falsy deref p.2) =
      (_generate_resource_class falsy deref b.2
        ++ l2.bind fun p => _generate_resource_class falsy deref p.2)
    rw [resource_class_congr falsy deref a.2 b.2 hab.2.1 hab.2.2 (hnd a (by simp)),
      ih fun p hp => hnd p (by simp [hp])]

/-- C8: generation is a deterministic function of the Spec's contents with
no dependence on unordered-map iteration order: if two Specs hold the same
resource entries up to iteration order of the resource map and of each
operations map (with duplicate-free names, as in a Python dict), the
generated output texts are byte-identical. -/
theorem generate_deterministic {V : Type} (falsy : V → Bool) (deref : Option V → Option V)
    (s1 s2 : Spec V) (service_name : String)
    (hiter : ∃ l, s1.resources.Perm l ∧ List.Forall₂ ResourcePairEquiv l s2.resources)
    (hnd : (s1.resources.map Prod.fst).Nodup)
    (hops : ∀ p ∈ s1.resources, ((p.2).operations.map Prod.fst).Nodup) :
    generate_client falsy deref s1 service_name =
      generate_client falsy deref s2 service_name := by
  obtain ⟨l, hperm, hf2⟩ := hiter
  unfold generate_client file_lines
  have hkeys : l.map Prod.fst = s2.resources.map Prod.fst := forall2_map_fst _ _ hf2
  have hacc : pySortedStrings (s1.resources.map Prod.fst) =
      pySortedStrings (s2.resources.map Prod.fst) := by
    rw [← hkeys]
    exact pySortedStrings_eq_of_perm _ _ (hperm.map Prod.fst)
  have hsort1 : pySortPairs s1.resources = pySortPairs l :=
    pySortPairs_eq_of_perm _ _ hperm hnd
  have hopsl : ∀ p ∈ pySortPairs l, ((p.2).operations.map Prod.fst).Nodup := by
    intro p hp
    exact hops p (hperm.mem_iff.mpr
      ((List.perm_insertionSort pyKeyRel l).mem_iff.mp hp))
  have hcls : ((pySortPairs s1.resources).bind fun p =>
      _generate_resource_class falsy deref p.2) =
      ((pySortPairs s2.resources).bind fun p =>
        _generate_resource_class falsy deref p.2) := by
    rw [hsort1]
    exact bind_class_forall2 falsy deref _ _ (forall2_sortPairs _ _ hf2) hopsl
  rw [hacc, hcls]

/-- First iteration order of the spec used by the determinism witness. -/
def specOrder1 : Spec ℕ :=
  ⟨[("a", ⟨"a", [("o1", ⟨"o1", [], []⟩)]⟩),
    ("b", ⟨"b", [("p1", ⟨"p1", [], []⟩), ("p2", ⟨"p2", [], []⟩)]⟩)]⟩

/-- Second iteration order of the same spec contents: resource map order and
resource `b`'s operations map order both permuted. -/
def specOrder2 : Spec ℕ :=
  ⟨[("b", ⟨"b", [("p2", ⟨"p2", [], []⟩), ("p1", ⟨"p1", [], []⟩)]⟩),
    ("a", ⟨"a", [("o1", ⟨"o1", [], []⟩)]⟩)]⟩

/-- C8 (witness): the two iteration orders of the same spec contents emit
byte-identical output. -/
theorem generate_deterministic_witness :
    generate_client (fun n : ℕ => n == 0) (fun r => r) specOrder1 "Svc" =
      generate_client (fun n : ℕ => n == 0) (fun r => r) specOrder2 "Svc" :=
  generate_deterministic (fun n : ℕ => n == 0) (fun r => r) specOrder1 specOrder2 "Svc"
    ⟨[("b", ⟨"b", [("p1", ⟨"p1", [], []⟩), ("p2", ⟨"p2", [], []⟩)]⟩),
      ("a", ⟨"a", [("o1", ⟨"o1", [], []⟩)]⟩)],
     by decide,
     List.Forall₂.cons ⟨rfl, rfl, by decide⟩
       (List.Forall₂.cons ⟨rfl, rfl, List.Perm.refl _⟩ List.Forall₂.nil)⟩
    (by decide) (by decide)
